import Mathlib

/-!
Shallow embedding of the PDF report downloader (Main.py, models/Report.py,
models/PDClient.py, models/Downloader.py, utils/utils.py) and proofs about it.

Python strings are `String`, Python's `in` substring test is `strContains`,
and `urllib.parse.urlparse(...).netloc` is `pyNetloc` (the scheme split and
`//`-netloc extraction of `urlsplit`; the IPv6-bracket `ValueError` path and
control-character stripping of the stdlib are not exercised by any input
considered here and are not modelled).  Exceptions are `Except String`.
-/

/-- Python `sub in s` (substring containment) on character lists. -/
def listContainsSub (pat : List Char) : List Char → Bool
  | [] => pat.isEmpty
  | c :: rest => pat.isPrefixOf (c :: rest) || listContainsSub pat rest

/-- Python `sub in s` on strings. -/
def strContains (s sub : String) : Bool :=
  listContainsSub sub.data s.data

/-- Characters allowed in a URL scheme by `urllib.parse` (letters, digits, `+`, `-`, `.`). -/
def schemeChar (c : Char) : Bool :=
  c.isAlpha || c.isDigit || c = '+' || c = '-' || c = '.'

/-- Split a character list at the first `:`; `none` when there is no colon. -/
def splitAtColon : List Char → Option (List Char × List Char)
  | [] => none
  | c :: rest =>
    if c = ':' then some ([], rest)
    else
      match splitAtColon rest with
      | some (pre, post) => some (c :: pre, post)
      | none => none

/-- Strip a leading `scheme:` as `urlsplit` does: the part before the first colon
must be nonempty, start with a letter and consist of scheme characters;
otherwise the URL is left intact. -/
def afterScheme (cs : List Char) : List Char :=
  match splitAtColon cs with
  | some (pre, post) =>
    match pre with
    | [] => cs
    | c0 :: _ => if c0.isAlpha && pre.all schemeChar then post else cs
  | none => cs

/-- Collect netloc characters: everything up to the first `/`, `?` or `#`. -/
def netlocChars : List Char → List Char
  | [] => []
  | c :: rest => if c = '/' || c = '?' || c = '#' then [] else c :: netlocChars rest

/-- Model of `urllib.parse.urlparse(url).netloc`: after stripping a scheme,
a netloc is present only when the remainder starts with `//`. -/
def pyNetloc (url : String) : String :=
  match afterScheme url.data with
  | '/' :: '/' :: t => ⟨netlocChars t⟩
  | _ => ""

/-! ## models/Report.py -/

/-- A constructed `PDFReport`: `brnum`, `pdf_url` and the normalized
`backup_url` (`None` when the raw cell contained `"nan"`). -/
structure Report where
  brnum : String
  pdf_url : String
  backup_url : Option String
deriving DecidableEq, Repr

/-- `PDFReport.is_valid_url(self, url)` (Report.py lines 36-52).  When
`"http" not in url` the code evaluates `f"http:\x7b{self.url}\x7d"` which reads the
nonexistent attribute `self.url` and raises `AttributeError` before assigning
anything.  Otherwise it parses `self.pdf_url` — not the `url` argument —
and returns whether the parsed netloc is nonempty.  `self_pdf_url` is the
value of the `self.pdf_url` field at call time. -/
def is_valid_url (self_pdf_url : String) (url : String) : Except String Bool :=
  if strContains url "http" then
    .ok (pyNetloc self_pdf_url ≠ "")
  else
    .error "AttributeError"

/-- `PDFReport.validate` (Report.py lines 26-34): if the primary fails the
check and a backup is present and passes the check, the backup is written
into the `pdf_url` slot.  Returns the resulting `pdf_url` field, or the
exception escaping the constructor.  Neither call to `is_valid_url` mutates
`self.pdf_url` on a non-raising path, so both receive the original value. -/
def validate (pdf_url : String) (backup : Option String) : Except String String :=
  match is_valid_url pdf_url pdf_url with
  | .error e => .error e
  | .ok v =>
    if v then .ok pdf_url
    else
      match backup with
      | none => .ok pdf_url
      | some b =>
        match is_valid_url pdf_url b with
        | .error e => .error e
        | .ok vb => if vb then .ok b else .ok pdf_url

/-- `PDFReport.__init__` (Report.py lines 10-24): normalizes the backup cell
(`None` when `"nan" in str(backup_url)`), then runs `validate`; any exception
raised there escapes the constructor. -/
def mkPDFReport (brnum pdf_url backup_raw : String) : Except String Report :=
  match validate pdf_url
      (if strContains backup_raw "nan" then none else some backup_raw) with
  | .error e => .error e
  | .ok effective =>
    .ok ⟨brnum, effective,
      if strContains backup_raw "nan" then none else some backup_raw⟩

/-- The corrected validator contract stated by the spec (§4.1 and §9): prepend
`http://` to the candidate string itself when `"http"` is absent, re-parse that
same string, and answer totally. -/
def is_valid_url_spec (url : String) : Bool :=
  let candidate := if strContains url "http" then url else "http://" ++ url
  pyNetloc candidate ≠ ""

/-! ## utils/utils.py -/

/-- `append_to_csv` (utils.py lines 5-46) on the file seen as a list of rows.
`writeMode = true` is mode `'w'`: the file is truncated and the header row is
written exactly when the data list is nonempty.  `writeMode = false` is mode
`'a'`: the header is written first only when the file is missing or empty,
then the data rows are appended.  `keys` are the keys of the (first)
dictionary, `rows` the list of value rows. -/
def append_to_csv (file : List (List String)) (keys : List String)
    (rows : List (List String)) (writeMode : Bool) : List (List String) :=
  if writeMode then
    if rows.isEmpty then [] else keys :: rows
  else
    (if file.isEmpty then (if rows.isEmpty then [] else [keys]) else file) ++ rows

/-! ## models/Downloader.py and models/PDClient.py -/

/-- A key of `Downloader.results` after `log_status_count`'s normalization:
either a string tag (`"SSL Error"`, `"Invalid Content-Type"`, `"N/A"`, an
exception type name) or an integer HTTP status code. -/
inductive ResultKey where
  | str (s : String)
  | int (n : Nat)
deriving DecidableEq, Repr

/-- How `csv.writer` renders a result key in a row. -/
def ResultKey.render : ResultKey → String
  | .str s => s
  | .int n => toString n

/-- The outcome the network and filesystem deliver for one execution of the
`session.get` block in `download_report` (lines 136-155): a 2xx
`application/pdf` response whose streamed write leaves a file of `fileSize`
bytes, an `SSLError`, an `HTTPError` (with the response's status code, or
none when no response object exists), the `ValueError` raised on a
Content-Type mismatch, or any other exception with its type name. -/
inductive AttemptOutcome where
  | success (status : Nat) (fileSize : Nat)
  | sslError
  | httpError (status : Option Nat)
  | contentTypeMismatch
  | otherError (kind : String)
deriving DecidableEq, Repr

/-- The mutable state a run of the engine touches: `Downloader.results`
(a Python dict, modelled as an insertion-ordered association list), the
outcome-sink file `output/status_codes_count.csv` rewritten by
`log_status_count`, the data rows appended by `PDClient.update_status` to
`output/downloaded_reports.csv` (the header row the CSV gains when first
created is not modelled; `sinkRows` is the sequence of appended data rows),
and the two running totals. -/
structure DState where
  results : List (ResultKey × Nat)
  statusFile : List (List String)
  sinkRows : List (String × String × ResultKey)
  successful_downloads : Nat
  failed_downloads : Nat
deriving DecidableEq, Repr

/-- The state of a fresh `Downloader` (lines 54-56). -/
def initState : DState := ⟨[], [], [], 0, 0⟩

/-- Increment a key's count in the dict, keeping insertion order; a new key is
appended with count 1 (`log_status_count` lines 86-90). -/
def bumpCount : List (ResultKey × Nat) → ResultKey → List (ResultKey × Nat)
  | [], k => [(k, 1)]
  | (k', c) :: rest, k =>
    if k' = k then (k', c + 1) :: rest else (k', c) :: bumpCount rest k

/-- The `data` list `log_status_count` builds from `self.results` (lines 92-98). -/
def renderRows (rs : List (ResultKey × Nat)) : List (List String) :=
  rs.map fun kc => [kc.1.render, toString kc.2]

/-- `Downloader.log_status_count` (lines 76-100): bump the count for the key
and rewrite the outcome-sink file as a full snapshot (mode `'w'`). -/
def log_status_count (st : DState) (result : ResultKey) : DState :=
  let results := bumpCount st.results result
  { st with
    results := results
    statusFile := append_to_csv st.statusFile ["Result", "Count"] (renderRows results) true }

/-- `PDClient.update_status` (PDClient.py lines 62-73): append one data row
`(brnum, "Yes"/"No", cause)` to the per-item status sink. -/
def update_status (st : DState) (brnum : String) (downloaded : Bool) (cause : ResultKey) : DState :=
  { st with
    sinkRows := st.sinkRows ++ [(brnum, if downloaded then "Yes" else "No", cause)] }

/-- `Downloader.handle_download_exception` (lines 107-118): log the result,
push a failure row for the item, and bump the failed total. -/
def handle_download_exception (st : DState) (brnum : String) (result : ResultKey) : DState :=
  let st := log_status_count st result
  let st := update_status st brnum false result
  { st with failed_downloads := st.failed_downloads + 1 }

/-- `urls_to_try` (line 129): `[pdf_url, backup_url]` when a backup exists,
else `[pdf_url]`. -/
def urlsToTry (r : Report) : List String :=
  match r.backup_url with
  | some b => [r.pdf_url, b]
  | none => [r.pdf_url]

/-- How one pass of the `for url in urls_to_try` loop ends: an early `return`
after a successful save, the `SSLError`-with-verification branch that
re-enters `download_report` with `verify_ssl=False` and returns, or falling
off the end of the loop. -/
inductive RoundExit where
  | succeeded
  | sslBypass
  | exhausted
deriving DecidableEq, Repr

/-- What one call layer of `download_report` produces: the state, the next
attempt index of the oracle, the attempts made as `(url, verify_ssl)` pairs
in order, and the number of `download_report` invocations entered. -/
structure RunOut where
  st : DState
  k : Nat
  trace : List (String × Bool)
  rounds : Nat
deriving DecidableEq, Repr

/-- The body of the `for url in urls_to_try` loop of `download_report`
(lines 132-181) against an oracle `w` giving the outcome of the `n`-th
`session.get` executed.  Returns the state, next attempt index, the attempt
trace and how the loop ended.  A saved file of size zero satisfies neither
the success check (line 151) nor any `except` clause, so the loop just moves
on.  An `SSLError` with `verify = true` leaves the loop (the handler recurses
and returns); with `verify = false` it is recorded as `"SSL Error"`. -/
def tryUrls (w : Nat → AttemptOutcome) (brnum : String) (verify : Bool) :
    List String → DState → Nat → DState × Nat × List (String × Bool) × RoundExit
  | [], st, k => (st, k, [], .exhausted)
  | url :: rest, st, k =>
    let next := fun (st' : DState) =>
      let (st'', k'', tr, ex) := tryUrls w brnum verify rest st' (k + 1)
      (st'', k'', (url, verify) :: tr, ex)
    match w k with
    | .success status fileSize =>
      if fileSize > 0 then
        let st' := update_status st brnum true (.int status)
        ({ st' with successful_downloads := st'.successful_downloads + 1 },
          k + 1, [(url, verify)], .succeeded)
      else
        next st
    | .sslError =>
      if verify then (st, k + 1, [(url, verify)], .sslBypass)
      else next (handle_download_exception st brnum (.str "SSL Error"))
    | .httpError status? =>
      next (handle_download_exception st brnum
        (match status? with | some s => .int s | none => .str "N/A"))
    | .contentTypeMismatch =>
      next (handle_download_exception st brnum (.str "Invalid Content-Type"))
    | .otherError kind =>
      next (handle_download_exception st brnum (.str kind))

/-- `download_report` with `verify_ssl=False`.  The `SSLError` handler cannot
re-enter here (`verify_ssl` is already false, so the handler records the
failure inside the loop — `tryUrls` with `verify = false` never exits with
`sslBypass`, see `tryUrls_false_no_bypass`); the only recursion is the
whole-round retry of lines 183-186, structural on `retries_left`. -/
def drFalse (w : Nat → AttemptOutcome) (r : Report) :
    Nat → DState → Nat → RunOut
  | retriesLeft, st, k =>
    let (st', k', tr, ex) := tryUrls w r.brnum false (urlsToTry r) st k
    match ex with
    | .succeeded => ⟨st', k', tr, 1⟩
    | .sslBypass => ⟨st', k', tr, 1⟩
    | .exhausted =>
      match retriesLeft with
      | 0 => ⟨st', k', tr, 1⟩
      | n + 1 =>
        let o := drFalse w r n st' k'
        ⟨o.st, o.k, tr ++ o.trace, 1 + o.rounds⟩

/-- `download_report` with `verify_ssl=True`: an `SSLError` re-enters with
`verify_ssl=False` and the same `retries_left` (lines 157-162) and then
returns; falling off the loop retries the whole round with `retries_left`
decremented (lines 183-186). -/
def drTrue (w : Nat → AttemptOutcome) (r : Report) :
    Nat → DState → Nat → RunOut
  | retriesLeft, st, k =>
    let (st', k', tr, ex) := tryUrls w r.brnum true (urlsToTry r) st k
    match ex with
    | .succeeded => ⟨st', k', tr, 1⟩
    | .sslBypass =>
      let o := drFalse w r retriesLeft st' k'
      ⟨o.st, o.k, tr ++ o.trace, 1 + o.rounds⟩
    | .exhausted =>
      match retriesLeft with
      | 0 => ⟨st', k', tr, 1⟩
      | n + 1 =>
        let o := drTrue w r n st' k'
        ⟨o.st, o.k, tr ++ o.trace, 1 + o.rounds⟩

/-- `Downloader.download_report(report, verify_ssl, retries_left)`
(lines 120-186).  The `verify_ssl` flag only ever flips from true to false,
so the recursion is split into `drTrue` and `drFalse`. -/
def download_report (w : Nat → AttemptOutcome) (r : Report) (verify : Bool)
    (retriesLeft : Nat) (st : DState) (k : Nat) : RunOut :=
  if verify then drTrue w r retriesLeft st k else drFalse w r retriesLeft st k

/-- The engine run over a list of reports: `Downloader.download` submits
`download_report(report)` (defaults `verify_ssl=True`, `retries_left=3`) for
each report; the shared state updates are serialized here in submission
order. -/
def runReports (w : Nat → AttemptOutcome) : List Report → DState → Nat → DState × Nat
  | [], st, k => (st, k)
  | r :: rest, st, k =>
    let o := download_report w r true 3 st k
    runReports w rest o.st o.k

/-- Progress-bar count and logged error lines of `Downloader.download`'s
drain loop (lines 200-210). -/
structure PoolState where
  progress : Nat
  logged : List String
deriving DecidableEq, Repr

/-- How one future ends as seen by `future.result()`: normal completion, or
re-raising the exception that escaped `download_report`. -/
inductive TaskCompletion where
  | completed
  | raised (msg : String)
deriving DecidableEq, Repr

/-- One iteration of the `as_completed` drain loop (lines 201-210):
`future.result()` re-raises an escaped exception, the `except` clause only
logs it, and the `finally` clause advances the progress bar; the shared
download state is not touched in either case. -/
def drain_completion (st : DState) (ps : PoolState) (t : TaskCompletion) :
    DState × PoolState :=
  match t with
  | .completed => (st, { ps with progress := ps.progress + 1 })
  | .raised m =>
    (st, { progress := ps.progress + 1,
           logged := ps.logged ++ ["Failed to download report because " ++ m] })

/-- The whole drain loop over the completions in the order they finish. -/
def drain_completions (st : DState) (ps : PoolState) :
    List TaskCompletion → DState × PoolState
  | [] => (st, ps)
  | t :: rest =>
    let (st', ps') := drain_completion st ps t
    drain_completions st' ps' rest

/-- The `for i in df.index` loop of `PDClient.parse_excel_to_reports`
(PDClient.py lines 49-56): a row whose `PDFReport` constructor raises is
skipped by the bare `except ... continue`. -/
def goParse : List (String × String × String) → List Report
  | [] => []
  | (i, p, b) :: rest =>
    match mkPDFReport i p b with
    | .ok r => r :: goParse rest
    | .error _ => goParse rest

/-- `PDClient.parse_excel_to_reports` (lines 45-60): the surviving reports in
row order, together with the unconditional success log line. -/
def parse_excel_to_reports (fileName : String)
    (rows : List (String × String × String)) : List Report × String :=
  (goParse rows, "Succesfully parsed all reports from " ++ fileName ++ ".xlsx")

/-- Total number of events recorded in `Downloader.results`. -/
def sumCounts (rs : List (ResultKey × Nat)) : Nat :=
  (rs.map Prod.snd).sum

/-- The count stored for a key in `Downloader.results` (0 when absent). -/
def lookupCount (key : ResultKey) : List (ResultKey × Nat) → Nat
  | [] => 0
  | (k, c) :: rest => if k = key then c else lookupCount key rest

/-- A sequence of `log_status_count` calls, oldest first. -/
def recordAll (st : DState) (ks : List ResultKey) : DState :=
  ks.foldl log_status_count st

/-- State `st'` extends `st` by `a` recorded successes and `b` recorded
failures: both running totals grew accordingly, one per-item status row was
appended per recorded outcome, and each recorded failure added one event to
the aggregate counters. -/
def Extends (st st' : DState) (a b : Nat) : Prop :=
  st'.successful_downloads = st.successful_downloads + a ∧
  st'.failed_downloads = st.failed_downloads + b ∧
  st'.sinkRows.length = st.sinkRows.length + (a + b) ∧
  sumCounts st'.results = sumCounts st.results + b

/-! ## Theorems -/

theorem Extends.refl' {st : DState} : Extends st st 0 0 :=
  ⟨rfl, rfl, rfl, rfl⟩

theorem Extends.trans' {s1 s2 s3 : DState} {a b a' b' : Nat}
    (h1 : Extends s1 s2 a b) (h2 : Extends s2 s3 a' b') :
    Extends s1 s3 (a + a') (b + b') := by
  obtain ⟨x1, x2, x3, x4⟩ := h1
  obtain ⟨y1, y2, y3, y4⟩ := h2
  refine ⟨?_, ?_, ?_, ?_⟩ <;> omega

theorem bumpCount_sum (rs : List (ResultKey × Nat)) (k : ResultKey) :
    sumCounts (bumpCount rs k) = sumCounts rs + 1 := by
  induction rs with
  | nil => simp [bumpCount, sumCounts]
  | cons p rest ih =>
    obtain ⟨k', c⟩ := p
    by_cases h : k' = k <;> simp [bumpCount, h, sumCounts] at ih ⊢ <;> omega

theorem handle_extends (st : DState) (br : String) (k : ResultKey) :
    Extends st (handle_download_exception st br k) 0 1 := by
  refine ⟨rfl, rfl, ?_, ?_⟩
  · simp [handle_download_exception, update_status, log_status_count]
  · simp [handle_download_exception, update_status, log_status_count, bumpCount_sum]

theorem tryUrls_extends (w : Nat → AttemptOutcome) (br : String) (v : Bool) :
    ∀ (urls : List String) (st : DState) (k : Nat),
      ∃ a b, Extends st (tryUrls w br v urls st k).1 a b := by
  intro urls
  induction urls with
  | nil => intro st k; exact ⟨0, 0, Extends.refl'⟩
  | cons u rest ih =>
    intro st k
    cases hw : w k with
    | success status fileSize =>
      by_cases hs : fileSize > 0
      · simp only [tryUrls, hw, hs, if_true]
        exact ⟨1, 0, by refine ⟨?_, ?_, ?_, ?_⟩ <;> simp [update_status]⟩
      · simp only [tryUrls, hw, hs, if_false]
        obtain ⟨a, b, h⟩ := ih st (k + 1)
        exact ⟨a, b, h⟩
    | sslError =>
      cases hv : v with
      | true =>
        simp only [tryUrls, hw, hv, if_true]
        exact ⟨0, 0, Extends.refl'⟩
      | false =>
        simp only [tryUrls, hw, hv, if_neg (by simp : ¬(false = true))]
        obtain ⟨a, b, h⟩ := ih (handle_download_exception st br (.str "SSL Error")) (k + 1)
        rw [hv] at h
        exact ⟨0 + a, 1 + b, Extends.trans' (handle_extends st br _) h⟩
    | httpError status? =>
      simp only [tryUrls, hw]
      cases status? with
      | some s =>
        obtain ⟨a, b, h⟩ := ih (handle_download_exception st br (.int s)) (k + 1)
        exact ⟨0 + a, 1 + b, Extends.trans' (handle_extends st br _) h⟩
      | none =>
        obtain ⟨a, b, h⟩ := ih (handle_download_exception st br (.str "N/A")) (k + 1)
        exact ⟨0 + a, 1 + b, Extends.trans' (handle_extends st br _) h⟩
    | contentTypeMismatch =>
      simp only [tryUrls, hw]
      obtain ⟨a, b, h⟩ := ih (handle_download_exception st br (.str "Invalid Content-Type")) (k + 1)
      exact ⟨0 + a, 1 + b, Extends.trans' (handle_extends st br _) h⟩
    | otherError kind =>
      simp only [tryUrls, hw]
      obtain ⟨a, b, h⟩ := ih (handle_download_exception st br (.str kind)) (k + 1)
      exact ⟨0 + a, 1 + b, Extends.trans' (handle_extends st br _) h⟩




theorem drFalse_extends (w : Nat → AttemptOutcome) (r : Report) :
    ∀ (retries : Nat) (st : DState) (k : Nat),
      ∃ a b, Extends st (drFalse w r retries st k).st a b := by
  intro retries
  induction retries with
  | zero =>
    intro st k
    obtain ⟨a, b, h⟩ := tryUrls_extends w r.brnum false (urlsToTry r) st k
    rcases h4 : tryUrls w r.brnum false (urlsToTry r) st k with ⟨st', k', tr, ex⟩
    rw [h4] at h
    rw [drFalse, h4]
    cases ex <;> exact ⟨a, b, h⟩
  | succ n ih =>
    intro st k
    obtain ⟨a, b, h⟩ := tryUrls_extends w r.brnum false (urlsToTry r) st k
    rcases h4 : tryUrls w r.brnum false (urlsToTry r) st k with ⟨st', k', tr, ex⟩
    rw [h4] at h
    rw [drFalse, h4]
    cases ex with
    | succeeded => exact ⟨a, b, h⟩
    | sslBypass => exact ⟨a, b, h⟩
    | exhausted =>
      obtain ⟨a', b', h'⟩ := ih st' k'
      exact ⟨a + a', b + b', Extends.trans' h h'⟩

theorem drTrue_extends (w : Nat → AttemptOutcome) (r : Report) :
    ∀ (retries : Nat) (st : DState) (k : Nat),
      ∃ a b, Extends st (drTrue w r retries st k).st a b := by
  intro retries
  induction retries with
  | zero =>
    intro st k
    obtain ⟨a, b, h⟩ := tryUrls_extends w r.brnum true (urlsToTry r) st k
    rcases h4 : tryUrls w r.brnum true (urlsToTry r) st k with ⟨st', k', tr, ex⟩
    rw [h4] at h
    rw [drTrue, h4]
    cases ex with
    | succeeded => exact ⟨a, b, h⟩
    | exhausted => exact ⟨a, b, h⟩
    | sslBypass =>
      obtain ⟨a', b', h'⟩ := drFalse_extends w r 0 st' k'
      exact ⟨a + a', b + b', Extends.trans' h h'⟩
  | succ n ih =>
    intro st k
    obtain ⟨a, b, h⟩ := tryUrls_extends w r.brnum true (urlsToTry r) st k
    rcases h4 : tryUrls w r.brnum true (urlsToTry r) st k with ⟨st', k', tr, ex⟩
    rw [h4] at h
    rw [drTrue, h4]
    cases ex with
    | succeeded => exact ⟨a, b, h⟩
    | sslBypass =>
      obtain ⟨a', b', h'⟩ := drFalse_extends w r (n + 1) st' k'
      exact ⟨a + a', b + b', Extends.trans' h h'⟩
    | exhausted =>
      obtain ⟨a', b', h'⟩ := ih st' k'
      exact ⟨a + a', b + b', Extends.trans' h h'⟩

theorem download_report_extends (w : Nat → AttemptOutcome) (r : Report) (v : Bool)
    (retries : Nat) (st : DState) (k : Nat) :
    ∃ a b, Extends st (download_report w r v retries st k).st a b := by
  cases v with
  | true => simpa only [download_report, if_true] using drTrue_extends w r retries st k
  | false =>
    simpa only [download_report, if_neg (by simp : ¬(false = true))] using
      drFalse_extends w r retries st k

theorem runReports_extends (w : Nat → AttemptOutcome) :
    ∀ (reports : List Report) (st : DState) (k : Nat),
      ∃ a b, Extends st (runReports w reports st k).1 a b := by
  intro reports
  induction reports with
  | nil => intro st k; exact ⟨0, 0, Extends.refl'⟩
  | cons r rest ih =>
    intro st k
    obtain ⟨a, b, h⟩ := download_report_extends w r true 3 st k
    obtain ⟨a', b', h'⟩ :=
      ih (download_report w r true 3 st k).st (download_report w r true 3 st k).k
    exact ⟨a + a', b + b', Extends.trans' h h'⟩


theorem head_some_cons {α : Type} {l : List α} {x : α}
    (h : l.head? = some x) : ∃ tl, l = x :: tl := by
  cases l with
  | nil => simp at h
  | cons a tl => simp at h; exact ⟨tl, by rw [h]⟩

theorem tryUrls_flag (w : Nat → AttemptOutcome) (br : String) (v : Bool) :
    ∀ (urls : List String) (st : DState) (k : Nat) (p : String × Bool),
      p ∈ (tryUrls w br v urls st k).2.2.1 → p.2 = v := by
  intro urls
  induction urls with
  | nil => intro st k p hp; simp [tryUrls] at hp
  | cons u rest ih =>
    intro st k p hp
    cases hw : w k with
    | success status fileSize =>
      by_cases hs : fileSize > 0
      · simp only [tryUrls, hw, hs, if_true, List.mem_singleton] at hp
        rw [hp]
      · simp only [tryUrls, hw, hs, if_false, List.mem_cons] at hp
        rcases hp with rfl | hp
        · rfl
        · exact ih _ _ _ hp
    | sslError =>
      cases hv : v with
      | true =>
        simp only [tryUrls, hw, hv, if_true, List.mem_singleton] at hp
        rw [hp]
      | false =>
        rw [hv] at ih
        simp only [tryUrls, hw, hv, if_neg (by simp : ¬(false = true)),
          List.mem_cons] at hp
        rcases hp with rfl | hp
        · rfl
        · exact ih _ _ _ hp
    | httpError status? =>
      simp only [tryUrls, hw, List.mem_cons] at hp
      rcases hp with rfl | hp
      · rfl
      · exact ih _ _ _ hp
    | contentTypeMismatch =>
      simp only [tryUrls, hw, List.mem_cons] at hp
      rcases hp with rfl | hp
      · rfl
      · exact ih _ _ _ hp
    | otherError kind =>
      simp only [tryUrls, hw, List.mem_cons] at hp
      rcases hp with rfl | hp
      · rfl
      · exact ih _ _ _ hp

theorem tryUrls_trace_head (w : Nat → AttemptOutcome) (br : String) (v : Bool)
    (u : String) (rest : List String) (st : DState) (k : Nat) :
    (tryUrls w br v (u :: rest) st k).2.2.1.head? = some (u, v) := by
  cases hw : w k with
  | success status fileSize =>
    by_cases hs : fileSize > 0
    · simp only [tryUrls, hw, hs, if_true, List.head?]
    · simp only [tryUrls, hw, hs, if_false, List.head?]
  | sslError =>
    cases hv : v with
    | true => simp only [tryUrls, hw, hv, if_true, List.head?]
    | false =>
      simp only [tryUrls, hw, hv, if_neg (by simp : ¬(false = true)), List.head?]
  | httpError status? => simp only [tryUrls, hw, List.head?]
  | contentTypeMismatch => simp only [tryUrls, hw, List.head?]
  | otherError kind => simp only [tryUrls, hw, List.head?]

theorem urlsToTry_cons (r : Report) : ∃ ts, urlsToTry r = r.pdf_url :: ts := by
  cases h : r.backup_url with
  | none => exact ⟨[], by simp [urlsToTry, h]⟩
  | some b => exact ⟨[b], by simp [urlsToTry, h]⟩

theorem drFalse_flag (w : Nat → AttemptOutcome) (r : Report) :
    ∀ (retries : Nat) (st : DState) (k : Nat) (p : String × Bool),
      p ∈ (drFalse w r retries st k).trace → p.2 = false := by
  intro retries
  induction retries with
  | zero =>
    intro st k p hp
    rcases h4 : tryUrls w r.brnum false (urlsToTry r) st k with ⟨st', k', tr, ex⟩
    rw [drFalse, h4] at hp
    have htr : ∀ q ∈ tr, (q : String × Bool).2 = false := by
      intro q hq
      exact tryUrls_flag w r.brnum false (urlsToTry r) st k q (by rw [h4]; exact hq)
    cases ex <;> exact htr p hp
  | succ n ih =>
    intro st k p hp
    rcases h4 : tryUrls w r.brnum false (urlsToTry r) st k with ⟨st', k', tr, ex⟩
    rw [drFalse, h4] at hp
    have htr : ∀ q ∈ tr, (q : String × Bool).2 = false := by
      intro q hq
      exact tryUrls_flag w r.brnum false (urlsToTry r) st k q (by rw [h4]; exact hq)
    cases ex with
    | succeeded => exact htr p hp
    | sslBypass => exact htr p hp
    | exhausted =>
      simp only [List.mem_append] at hp
      rcases hp with hp | hp
      · exact htr p hp
      · exact ih st' k' p hp

theorem drFalse_trace_head (w : Nat → AttemptOutcome) (r : Report)
    (retries : Nat) (st : DState) (k : Nat) :
    (drFalse w r retries st k).trace.head? = some (r.pdf_url, false) := by
  obtain ⟨ts, hts⟩ := urlsToTry_cons r
  have hhd : (tryUrls w r.brnum false (urlsToTry r) st k).2.2.1.head? = some (r.pdf_url, false) := by
    rw [hts]; exact tryUrls_trace_head w r.brnum false r.pdf_url ts st k
  rcases h4 : tryUrls w r.brnum false (urlsToTry r) st k with ⟨st', k', tr, ex⟩
  rw [h4] at hhd
  obtain ⟨tl, htl⟩ := head_some_cons hhd
  have htr : tr = (r.pdf_url, false) :: tl := htl
  cases retries with
  | zero => rw [drFalse, h4]; cases ex <;> rw [htr] <;> simp
  | succ n => rw [drFalse, h4]; cases ex <;> rw [htr] <;> simp

theorem drTrue_split (w : Nat → AttemptOutcome) (r : Report) :
    ∀ (retries : Nat) (st : DState) (k : Nat),
      ∃ t f, (drTrue w r retries st k).trace = t ++ f
        ∧ (∀ p ∈ t, (p : String × Bool).2 = true)
        ∧ (∀ p ∈ f, (p : String × Bool).2 = false)
        ∧ (f = [] ∨ f.head? = some (r.pdf_url, false)) := by
  intro retries
  induction retries with
  | zero =>
    intro st k
    rcases h4 : tryUrls w r.brnum true (urlsToTry r) st k with ⟨st', k', tr, ex⟩
    have htr : ∀ q ∈ tr, (q : String × Bool).2 = true := by
      intro q hq
      exact tryUrls_flag w r.brnum true (urlsToTry r) st k q (by rw [h4]; exact hq)
    rw [drTrue, h4]
    cases ex with
    | succeeded => exact ⟨tr, [], by simp, htr, by simp, Or.inl rfl⟩
    | exhausted => exact ⟨tr, [], by simp, htr, by simp, Or.inl rfl⟩
    | sslBypass =>
      refine ⟨tr, (drFalse w r 0 st' k').trace, rfl, htr, ?_, Or.inr ?_⟩
      · intro p hp; exact drFalse_flag w r 0 st' k' p hp
      · exact drFalse_trace_head w r 0 st' k'
  | succ n ih =>
    intro st k
    rcases h4 : tryUrls w r.brnum true (urlsToTry r) st k with ⟨st', k', tr, ex⟩
    have htr : ∀ q ∈ tr, (q : String × Bool).2 = true := by
      intro q hq
      exact tryUrls_flag w r.brnum true (urlsToTry r) st k q (by rw [h4]; exact hq)
    rw [drTrue, h4]
    cases ex with
    | succeeded => exact ⟨tr, [], by simp, htr, by simp, Or.inl rfl⟩
    | sslBypass =>
      refine ⟨tr, (drFalse w r (n + 1) st' k').trace, rfl, htr, ?_, Or.inr ?_⟩
      · intro p hp; exact drFalse_flag w r (n + 1) st' k' p hp
      · exact drFalse_trace_head w r (n + 1) st' k'
    | exhausted =>
      obtain ⟨t', f', heq, ht', hf', hhd⟩ := ih st' k'
      refine ⟨tr ++ t', f', ?_, ?_, hf', hhd⟩
      · show tr ++ (drTrue w r n st' k').trace = (tr ++ t') ++ f'
        rw [heq, List.append_assoc]
      intro p hp
      rcases List.mem_append.mp hp with hp | hp
      · exact htr p hp
      · exact ht' p hp

theorem drFalse_rounds (w : Nat → AttemptOutcome) (r : Report) :
    ∀ (retries : Nat) (st : DState) (k : Nat),
      (drFalse w r retries st k).rounds ≤ retries + 1 := by
  intro retries
  induction retries with
  | zero =>
    intro st k
    rcases h4 : tryUrls w r.brnum false (urlsToTry r) st k with ⟨st', k', tr, ex⟩
    rw [drFalse, h4]
    cases ex <;> simp
  | succ n ih =>
    intro st k
    rcases h4 : tryUrls w r.brnum false (urlsToTry r) st k with ⟨st', k', tr, ex⟩
    rw [drFalse, h4]
    cases ex with
    | succeeded => simp
    | sslBypass => simp
    | exhausted =>
      have := ih st' k'
      show 1 + (drFalse w r n st' k').rounds ≤ n + 1 + 1
      omega

theorem drTrue_rounds (w : Nat → AttemptOutcome) (r : Report) :
    ∀ (retries : Nat) (st : DState) (k : Nat),
      (drTrue w r retries st k).rounds ≤ retries + 2 := by
  intro retries
  induction retries with
  | zero =>
    intro st k
    rcases h4 : tryUrls w r.brnum true (urlsToTry r) st k with ⟨st', k', tr, ex⟩
    rw [drTrue, h4]
    cases ex with
    | succeeded => simp
    | exhausted => simp
    | sslBypass =>
      have := drFalse_rounds w r 0 st' k'
      show 1 + (drFalse w r 0 st' k').rounds ≤ 0 + 2
      omega
  | succ n ih =>
    intro st k
    rcases h4 : tryUrls w r.brnum true (urlsToTry r) st k with ⟨st', k', tr, ex⟩
    rw [drTrue, h4]
    cases ex with
    | succeeded => simp
    | sslBypass =>
      have := drFalse_rounds w r (n + 1) st' k'
      show 1 + (drFalse w r (n + 1) st' k').rounds ≤ n + 1 + 2
      omega
    | exhausted =>
      have := ih st' k'
      show 1 + (drTrue w r n st' k').rounds ≤ n + 1 + 2
      omega

theorem bumpCount_ne_nil (rs : List (ResultKey × Nat)) (k : ResultKey) :
    bumpCount rs k ≠ [] := by
  cases rs with
  | nil => simp [bumpCount]
  | cons p rest =>
    obtain ⟨k', c⟩ := p
    by_cases h : k' = k <;> simp [bumpCount, h]

theorem bumpCount_lookup (key k : ResultKey) (rs : List (ResultKey × Nat)) :
    lookupCount key (bumpCount rs k)
      = lookupCount key rs + (if k = key then 1 else 0) := by
  induction rs with
  | nil =>
    by_cases h : k = key <;> simp [bumpCount, lookupCount, h]
  | cons p rest ih =>
    obtain ⟨k', c⟩ := p
    by_cases h1 : k' = k
    · subst h1
      by_cases h2 : k' = key <;> simp [bumpCount, lookupCount, h2]
    · by_cases h2 : k' = key
      · subst h2
        have h1' : ¬(k = k') := fun h => h1 h.symm
        simp [bumpCount, lookupCount, h1, h1']
      · simp [bumpCount, lookupCount, h1, h2, ih]

theorem bumpCount_keys (rs : List (ResultKey × Nat)) (k : ResultKey) :
    (bumpCount rs k).map Prod.fst
      = if k ∈ rs.map Prod.fst then rs.map Prod.fst
        else rs.map Prod.fst ++ [k] := by
  induction rs with
  | nil => simp [bumpCount]
  | cons p rest ih =>
    obtain ⟨k', c⟩ := p
    by_cases h : k' = k
    · simp [bumpCount, h]
    · simp only [bumpCount, if_neg h, List.map_cons, ih]
      by_cases hm : k ∈ rest.map Prod.fst
      · simp [hm, h, List.mem_cons, Ne.symm h]
      · simp [hm, h, List.mem_cons, Ne.symm h]

theorem bumpCount_nodup {rs : List (ResultKey × Nat)} (k : ResultKey)
    (h : (rs.map Prod.fst).Nodup) : ((bumpCount rs k).map Prod.fst).Nodup := by
  rw [bumpCount_keys]
  by_cases hm : k ∈ rs.map Prod.fst
  · simpa [hm] using h
  · simp only [hm, if_false]
    simpa [List.nodup_append, hm] using h

theorem recordAll_results (ks : List ResultKey) :
    ∀ st : DState, (recordAll st ks).results = ks.foldl bumpCount st.results := by
  induction ks with
  | nil => intro st; simp [recordAll]
  | cons x ks ih =>
    intro st
    show (recordAll (log_status_count st x) ks).results
      = ks.foldl bumpCount (bumpCount st.results x)
    rw [ih (log_status_count st x)]
    rfl

theorem foldl_bumpCount_lookup (key : ResultKey) (ks : List ResultKey) :
    ∀ rs : List (ResultKey × Nat),
      lookupCount key (ks.foldl bumpCount rs)
        = lookupCount key rs + ks.count key := by
  induction ks with
  | nil => intro rs; simp
  | cons x ks ih =>
    intro rs
    rw [List.foldl_cons, ih (bumpCount rs x), bumpCount_lookup, List.count_cons]
    by_cases h : x = key
    · simp [h]
      omega
    · simp [h]

theorem foldl_bumpCount_nodup (ks : List ResultKey) :
    ∀ rs : List (ResultKey × Nat), (rs.map Prod.fst).Nodup →
      ((ks.foldl bumpCount rs).map Prod.fst).Nodup := by
  induction ks with
  | nil => intro rs h; simpa using h
  | cons x ks ih =>
    intro rs h
    exact ih (bumpCount rs x) (bumpCount_nodup x h)

theorem validate_ok (p : String) (backup : Option String) (e : String)
    (h : validate p backup = .ok e) : e = p := by
  unfold validate is_valid_url at h
  by_cases h1 : strContains p "http"
  · simp only [h1, if_true] at h
    by_cases h2 : pyNetloc p ≠ ""
    · simp [h2] at h
      exact h.symm
    · simp only [h2, decide_False, if_false, decide_not] at h
      cases backup with
      | none =>
        simp at h
        exact h.symm
      | some b =>
        by_cases h3 : strContains b "http"
        · simp only [h3, if_true] at h
          simp [h2] at h
          exact h.symm
        · simp [h3] at h
  · simp [h1] at h

theorem goParse_eq_filterMap (rows : List (String × String × String)) :
    goParse rows = rows.filterMap (fun t => (mkPDFReport t.1 t.2.1 t.2.2).toOption) := by
  induction rows with
  | nil => simp [goParse]
  | cons t rest ih =>
    obtain ⟨i, p, b⟩ := t
    cases h : mkPDFReport i p b with
    | ok r => simp [goParse, h, ih, Except.toOption]
    | error e => simp [goParse, h, ih, Except.toOption]

/-- C1 (counterexample): one input item whose primary fails with HTTP 404 and
whose backup then succeeds produces two rows in the per-item status sink, not
exactly one. -/
theorem run_one_row_per_item_counterexample :
    ((runReports (fun n => if n = 0 then .httpError (some 404) else .success 200 5)
        [⟨"R1", "http://p.example/a.pdf", some "http://b.example/b.pdf"⟩]
        initState 0).1).sinkRows
      = [("R1", "No", .int 404), ("R1", "Yes", .int 200)] := rfl

/-- C1 (amended): a full engine run appends one per-item status row per
recorded attempt outcome — the row count equals the success total plus the
failure total, not the number of input items. -/
theorem run_emits_one_row_per_recorded_outcome (w : Nat → AttemptOutcome)
    (reports : List Report) :
    ((runReports w reports initState 0).1).sinkRows.length
      = ((runReports w reports initState 0).1).successful_downloads
        + ((runReports w reports initState 0).1).failed_downloads := by
  obtain ⟨a, b, h1, h2, h3, h4⟩ := runReports_extends w reports initState 0
  rw [show initState.successful_downloads = 0 from rfl] at h1
  rw [show initState.failed_downloads = 0 from rfl] at h2
  rw [show initState.sinkRows.length = 0 from rfl] at h3
  omega

/-- C2 (counterexample): with the default budget, a TLS failure on the primary
URL of an item that also has a backup is followed by a verification-disabled
attempt on the primary and then a verification-disabled attempt on the
*backup* — the bypass is not limited to the single failing URL. -/
theorem tls_bypass_single_url_counterexample :
    (fun n => if n = 0 then .sslError else .httpError (some 404) : Nat → AttemptOutcome) 0
        = .sslError
      ∧ (download_report (fun n => if n = 0 then .sslError else .httpError (some 404))
          ⟨"R1", "http://p.example/a.pdf", some "http://b.example/b.pdf"⟩
          true 3 initState 0).trace.take 3
        = [("http://p.example/a.pdf", true), ("http://p.example/a.pdf", false),
           ("http://b.example/b.pdf", false)] :=
  ⟨rfl, rfl⟩

/-- C2 (amended): in a run started with verification enabled, the attempt
trace is a block of verification-enabled attempts followed by a block of
verification-disabled attempts; once the TLS bypass fires, the item restarts
from its first candidate URL and verification stays disabled for every
remaining attempt and round of the item. -/
theorem tls_bypass_disables_verification_for_rest_of_item
    (w : Nat → AttemptOutcome) (r : Report) (retries : Nat) (st : DState) (k : Nat) :
    ∃ t f, (download_report w r true retries st k).trace = t ++ f
      ∧ (∀ p ∈ t, (p : String × Bool).2 = true)
      ∧ (∀ p ∈ f, (p : String × Bool).2 = false)
      ∧ (f = [] ∨ f.head? = some (r.pdf_url, false)) :=
  drTrue_split w r retries st k

/-- C3 (counterexample): a primary URL that parses to an empty netloc next to
a present backup URL with a non-empty netloc is not replaced — the report is
constructed with the invalid primary, and the first attempt of a run uses the
primary, not the backup. -/
theorem backup_substitution_counterexample :
    pyNetloc "http:no-host" = ""
      ∧ pyNetloc "http://b.example/b.pdf" = "b.example"
      ∧ mkPDFReport "R1" "http:no-host" "http://b.example/b.pdf"
          = .ok ⟨"R1", "http:no-host", some "http://b.example/b.pdf"⟩
      ∧ (download_report (fun _ => .httpError (some 404))
          ⟨"R1", "http:no-host", some "http://b.example/b.pdf"⟩
          true 3 initState 0).trace.head? = some ("http:no-host", true) :=
  ⟨rfl, rfl, rfl, rfl⟩

/-- C3 (amended): whenever `PDFReport` construction succeeds, the effective
primary equals the original `pdf_url` — the backup-substitution branch is
unreachable because the validity check re-parses the primary field instead of
the backup candidate. -/
theorem validate_never_substitutes_backup (brnum p braw : String) (r : Report)
    (h : mkPDFReport brnum p braw = .ok r) : r.pdf_url = p := by
  unfold mkPDFReport at h
  cases hv : validate p (if strContains braw "nan" then none else some braw) with
  | error e => rw [hv] at h; exact absurd h (by simp)
  | ok e =>
    rw [hv] at h
    simp only [Except.ok.injEq] at h
    rw [← h]
    exact validate_ok p _ e hv

theorem validate_never_substitutes_backup_witness :
    mkPDFReport "R2" "http://x.com/f.pdf" "nan"
        = .ok ⟨"R2", "http://x.com/f.pdf", none⟩
      ∧ (⟨"R2", "http://x.com/f.pdf", none⟩ : Report).pdf_url = "http://x.com/f.pdf" :=
  ⟨rfl, validate_never_substitutes_backup "R2" "http://x.com/f.pdf" "nan" _ rfl⟩

/-- C4: the validity check is not total on its candidate and does not decide
from the candidate string: a scheme-less candidate raises `AttributeError`
(the undefined `self.url`), and a candidate with a perfectly good host is
judged by re-parsing `self.pdf_url` instead (here: judged invalid); the
spec's corrected contract answers totally on both inputs. -/
theorem is_valid_url_raises_on_failing_input :
    is_valid_url "not-a-url" "not-a-url" = .error "AttributeError"
      ∧ is_valid_url "http:bad" "http://other.example" = .ok false
      ∧ pyNetloc "http://other.example" = "other.example"
      ∧ is_valid_url_spec "not-a-url" = true
      ∧ is_valid_url_spec "http://other.example" = true :=
  ⟨rfl, rfl, rfl, rfl, rfl⟩

/-- C5 (counterexample): one item whose only URL answers HTTP 404 in the
initial round and in every retry round drives `failed_downloads` to 4 while
only one item was processed, so succeeded + failed ≠ items processed. -/
theorem totals_equal_items_counterexample :
    ((runReports (fun _ => .httpError (some 404))
        [⟨"R2", "http://p.example/a.pdf", none⟩] initState 0).1).successful_downloads = 0
      ∧ ((runReports (fun _ => .httpError (some 404))
          [⟨"R2", "http://p.example/a.pdf", none⟩] initState 0).1).failed_downloads = 4
      ∧ [(⟨"R2", "http://p.example/a.pdf", none⟩ : Report)].length = 1 :=
  ⟨rfl, rfl, rfl⟩

/-- C5 (amended): the two running totals count recorded attempt outcomes, not
items: their sum equals the number of per-item status rows emitted, and the
failure total equals the total number of events recorded in the aggregate
counters (successes are never recorded there). -/
theorem totals_count_recorded_outcomes_not_items (w : Nat → AttemptOutcome)
    (reports : List Report) :
    ((runReports w reports initState 0).1).successful_downloads
        + ((runReports w reports initState 0).1).failed_downloads
      = ((runReports w reports initState 0).1).sinkRows.length
    ∧ sumCounts ((runReports w reports initState 0).1).results
      = ((runReports w reports initState 0).1).failed_downloads := by
  obtain ⟨a, b, h1, h2, h3, h4⟩ := runReports_extends w reports initState 0
  rw [show initState.successful_downloads = 0 from rfl] at h1
  rw [show initState.failed_downloads = 0 from rfl] at h2
  rw [show initState.sinkRows.length = 0 from rfl] at h3
  rw [show sumCounts initState.results = 0 from rfl] at h4
  exact ⟨by omega, by omega⟩

/-- C6 (counterexample): when every acceptable response streams to a
zero-byte file, a full per-item run records nothing at all — no failure
count, no aggregate entry, no status row — instead of recording
`OtherError("empty-file")` failures. -/
theorem empty_file_failure_counterexample :
    (download_report (fun _ => .success 200 0)
        ⟨"R2", "http://p.example/a.pdf", none⟩ true 3 initState 0).st.failed_downloads = 0
      ∧ (download_report (fun _ => .success 200 0)
          ⟨"R2", "http://p.example/a.pdf", none⟩ true 3 initState 0).st.results = []
      ∧ (download_report (fun _ => .success 200 0)
          ⟨"R2", "http://p.example/a.pdf", none⟩ true 3 initState 0).st.sinkRows = []
      ∧ (download_report (fun _ => .success 200 0)
          ⟨"R2", "http://p.example/a.pdf", none⟩ true 3 initState 0).st.successful_downloads = 0 :=
  ⟨rfl, rfl, rfl, rfl⟩

/-- C6 (amended): an attempt whose acceptable response is written to a
zero-size file is silently dropped: it changes no state, records no outcome,
and the loop simply advances to the next candidate URL. -/
theorem zero_byte_file_silently_skipped (w : Nat → AttemptOutcome) (br : String)
    (v : Bool) (url : String) (rest : List String) (st : DState) (k : Nat) (s : Nat)
    (h : w k = .success s 0) :
    tryUrls w br v (url :: rest) st k
      = ((tryUrls w br v rest st (k + 1)).1, (tryUrls w br v rest st (k + 1)).2.1,
          (url, v) :: (tryUrls w br v rest st (k + 1)).2.2.1,
          (tryUrls w br v rest st (k + 1)).2.2.2) := by
  simp [tryUrls, h]

theorem zero_byte_file_silently_skipped_witness :
    (fun _ => AttemptOutcome.success 200 0 : Nat → AttemptOutcome) 0
        = AttemptOutcome.success 200 0
      ∧ tryUrls (fun _ => AttemptOutcome.success 200 0) "R2" true
            ["http://p.example/a.pdf"] initState 0
        = ((tryUrls (fun _ => AttemptOutcome.success 200 0) "R2" true [] initState 1).1,
            (tryUrls (fun _ => AttemptOutcome.success 200 0) "R2" true [] initState 1).2.1,
            ("http://p.example/a.pdf", true)
              :: (tryUrls (fun _ => AttemptOutcome.success 200 0) "R2" true [] initState 1).2.2.1,
            (tryUrls (fun _ => AttemptOutcome.success 200 0) "R2" true [] initState 1).2.2.2) :=
  ⟨rfl, zero_byte_file_silently_skipped (fun _ => AttemptOutcome.success 200 0)
    "R2" true "http://p.example/a.pdf" [] initState 0 200 rfl⟩

/-- C7 (counterexample): a TLS failure on the first attempt followed by
ordinary failures drives an item through 5 invocations of `download_report`
with the default budget of 3 — more than the claimed 4 rounds, and a
recursion depth exceeding the budget. -/
theorem four_rounds_bound_counterexample :
    (download_report (fun n => if n = 0 then .sslError else .httpError (some 404))
        ⟨"R2", "http://p.example/a.pdf", none⟩ true 3 initState 0).rounds = 5 :=
  rfl

/-- C7 (amended): the per-item procedure always terminates, and the number of
`download_report` invocations for an item is at most `retries_left + 1` plus
one more for the single possible TLS-bypass restart (which does not decrement
the budget): at most `retries_left + 2` when verification starts enabled. -/
theorem download_report_rounds_bounded (w : Nat → AttemptOutcome) (r : Report)
    (v : Bool) (retries : Nat) (st : DState) (k : Nat) :
    (download_report w r v retries st k).rounds
      ≤ retries + 1 + (if v then 1 else 0) := by
  cases v with
  | true =>
    have := drTrue_rounds w r retries st k
    simpa [download_report] using this
  | false =>
    have := drFalse_rounds w r retries st k
    simpa [download_report] using this

/-- C8 (counterexample): draining a task whose exception escaped the
Controller logs the error and advances the progress bar, but adds nothing to
any failure counter — the "unexpected failure" is never counted. -/
theorem unexpected_failure_not_counted_counterexample :
    drain_completions initState ⟨0, []⟩ [.raised "boom"]
      = (initState, ⟨1, ["Failed to download report because boom"]⟩) :=
  rfl

/-- C8 (amended): the scheduler's drain loop catches every escaped task
exception (logging one line per raised task), never aborts the remaining
tasks, advances the completed-task count exactly once per task regardless of
outcome, and leaves the download counters untouched — escaped exceptions are
not counted as failures anywhere. -/
theorem drain_logs_and_continues_without_counting (ts : List TaskCompletion) :
    ∀ (st : DState) (ps : PoolState),
      (drain_completions st ps ts).1 = st
        ∧ (drain_completions st ps ts).2.progress = ps.progress + ts.length
        ∧ (drain_completions st ps ts).2.logged
          = ps.logged ++ ts.filterMap (fun t =>
              match t with
              | .completed => none
              | .raised m => some ("Failed to download report because " ++ m)) := by
  induction ts with
  | nil => intro st ps; simp [drain_completions]
  | cons t rest ih =>
    intro st ps
    cases t with
    | completed =>
      obtain ⟨g1, g2, g3⟩ := ih st { ps with progress := ps.progress + 1 }
      refine ⟨g1, ?_, ?_⟩
      · rw [show (drain_completions st ps (.completed :: rest)).2
            = (drain_completions st { ps with progress := ps.progress + 1 } rest).2 from rfl]
        rw [g2]
        simp
        omega
      · rw [show (drain_completions st ps (.completed :: rest)).2
            = (drain_completions st { ps with progress := ps.progress + 1 } rest).2 from rfl]
        rw [g3]
        simp [List.filterMap_cons]
    | raised m =>
      obtain ⟨g1, g2, g3⟩ := ih st
        ⟨ps.progress + 1, ps.logged ++ ["Failed to download report because " ++ m]⟩
      refine ⟨g1, ?_, ?_⟩
      · rw [show (drain_completions st ps (.raised m :: rest)).2
            = (drain_completions st
                ⟨ps.progress + 1, ps.logged ++ ["Failed to download report because " ++ m]⟩
                rest).2 from rfl]
        rw [g2]
        simp
        omega
      · rw [show (drain_completions st ps (.raised m :: rest)).2
            = (drain_completions st
                ⟨ps.progress + 1, ps.logged ++ ["Failed to download report because " ++ m]⟩
                rest).2 from rfl]
        rw [g3]
        simp [List.filterMap_cons]

/-- C9 (confirmed): after every `log_status_count` call, the outcome sink is
a full overwrite-snapshot: the `Result, Count` header followed by exactly one
row per distinct key recorded so far (keys are never duplicated), and the
stored count of each key equals the number of times it was recorded in the
whole history. -/
theorem outcome_sink_full_snapshot (ks : List ResultKey) (k : ResultKey) :
    (recordAll initState (ks ++ [k])).statusFile
        = ["Result", "Count"] :: renderRows (recordAll initState (ks ++ [k])).results
      ∧ ((recordAll initState (ks ++ [k])).results.map Prod.fst).Nodup
      ∧ ∀ key : ResultKey,
          lookupCount key (recordAll initState (ks ++ [k])).results
            = (ks ++ [k]).count key := by
  have hsplit : recordAll initState (ks ++ [k])
      = log_status_count (recordAll initState ks) k := by
    simp [recordAll, List.foldl_append]
  refine ⟨?_, ?_, ?_⟩
  · rw [hsplit]
    show append_to_csv (recordAll initState ks).statusFile ["Result", "Count"]
        (renderRows (bumpCount (recordAll initState ks).results k)) true
      = ["Result", "Count"] :: renderRows (bumpCount (recordAll initState ks).results k)
    have hne : ¬(renderRows (bumpCount (recordAll initState ks).results k)).isEmpty = true := by
      simp [renderRows, List.isEmpty_iff, bumpCount_ne_nil]
    simp [append_to_csv, hne]
  · rw [recordAll_results]
    exact foldl_bumpCount_nodup (ks ++ [k]) [] (by simp)
  · intro key
    rw [recordAll_results]
    have := foldl_bumpCount_lookup key (ks ++ [k]) ([] : List (ResultKey × Nat))
    simpa [lookupCount] using this

/-- C10 (confirmed): a catalog row whose `PDFReport` construction raises is
silently skipped — the returned work list is exactly the rows whose
construction succeeded, in order — and the parser logs its success message
unconditionally; in particular a list whose only row raises yields an empty
work list together with the success message. -/
theorem parse_skips_raising_rows_and_reports_success (fileName : String)
    (rows : List (String × String × String)) :
    (parse_excel_to_reports fileName rows).1
        = rows.filterMap (fun t => (mkPDFReport t.1 t.2.1 t.2.2).toOption)
      ∧ (parse_excel_to_reports fileName rows).2
        = "Succesfully parsed all reports from " ++ fileName ++ ".xlsx"
      ∧ parse_excel_to_reports "GRI_2017_2020" [("R1", "not-a-url", "http://b.example/b.pdf")]
        = ([], "Succesfully parsed all reports from GRI_2017_2020.xlsx") := by
  refine ⟨goParse_eq_filterMap rows, rfl, ?_⟩
  rfl
